import Mathlib

/-!
Verification of the c-TF-IDF scoring pipeline of the Reviewer repository
(src/Reviewer/tfidf.py, class TFIDF) against its natural-language
specification.

The shallow embedding below translates the numerical and list-processing
content of the source:

* `TFIDF.c_tf_idf` (the weighting): the source transposes the count matrix
  produced by the vectorizer (`t = np.array(t.todense()).T`), so the array
  it manipulates is term-major (rows = terms, columns = classes).  The
  embedding keeps the class-major count matrix `tC` (what
  `count.transform(documents)` returns, one row per class) as input and
  mirrors every intermediate array of the source: the transposed matrix
  `tT`, the per-class word totals `w = t.sum(axis=0)`, the Laplace-smoothed
  frequencies `tf = (t + 1) / (w + 1)`, the per-term totals
  `sum_tij = t.sum(axis=1)`, `idf = log(m / sum_tij)` and the product
  `tf_idf = tf * idf`.  Numpy float arithmetic is modelled over `ℝ`
  (division and `log` total with the Mathlib junk-value conventions).
* `TFIDF.prepare_data` (the aggregator): a Python dict is modelled as an
  association list whose keys are distinct; dict indexing is `find?` on the
  key, list building mirrors the comprehensions of the source.
* `TFIDF.extract_top_n_tfidf` (ranking): the pandas frame indexed by the
  vocabulary with one column per title is modelled as the list of
  (term, score) pairs of a column; `sort_values(..., ascending=False)` is
  modelled by a deterministic descending sort on the score (the tie order
  of the pandas quicksort is implementation-defined and is not modelled).
  Scores are taken in `ℚ` here so that sorting is decidable; the ranking
  code is generic in the numeric values it receives.
* `TFIDF.extract_top_n_relative_importance`: the source mutates the shared
  frame (`result["Importance"] = ...`) inside the loop over titles, so the
  column summed by later iterations contains the previously computed
  scores.  The embedding threads that optional extra column explicitly.
* plain mode of `TFIDF.generate` (`class_tfidf = False`): only the first
  key of the review dict is processed; `get_top_n_words` wraps the external
  vectorizer (declared a black box by the specification) and is therefore a
  function parameter of the embedding.
-/

namespace TFIDF

/-- The transposed count array `t = np.array(t.todense()).T` of `c_tf_idf`:
rows are terms, columns are classes.  `tC` is the class-major matrix the
vectorizer returns. -/
def tT {k nT : ℕ} (tC : Fin k → Fin nT → ℝ) : Fin nT → Fin k → ℝ :=
  fun j i => tC i j

/-- `w = t.sum(axis=0)`: the total word count of each class (column sums of
the transposed array). -/
noncomputable def w {k nT : ℕ} (tC : Fin k → Fin nT → ℝ) : Fin k → ℝ :=
  fun i => ∑ j, tT tC j i

/-- `tf = np.divide(t + 1, w + 1)`: Laplace-smoothed term frequency,
term-major like the source array. -/
noncomputable def tf {k nT : ℕ} (tC : Fin k → Fin nT → ℝ) : Fin nT → Fin k → ℝ :=
  fun j i => (tT tC j i + 1) / (w tC i + 1)

/-- `sum_tij = np.array(t.sum(axis=1)).T`: total count of each term across
all classes. -/
noncomputable def sum_tij {k nT : ℕ} (tC : Fin k → Fin nT → ℝ) : Fin nT → ℝ :=
  fun j => ∑ i, tT tC j i

/-- `idf = np.log(np.divide(m, sum_tij))`, one value per term. -/
noncomputable def idf {k nT : ℕ} (m : ℝ) (tC : Fin k → Fin nT → ℝ) : Fin nT → ℝ :=
  fun j => Real.log (m / sum_tij tC j)

/-- `tf_idf = np.multiply(tf, idf)`: the importance matrix returned by
`c_tf_idf`, term-major (entry `tf_idf m tC j i` is the score of term `j`
for class `i`). -/
noncomputable def tf_idf {k nT : ℕ} (m : ℝ) (tC : Fin k → Fin nT → ℝ) : Fin nT → Fin k → ℝ :=
  fun j i => tf tC j i * idf m tC j

/-- Multiplying every count of class `i0` by the constant `c`, leaving the
other classes untouched. -/
def scaleClass {k nT : ℕ} (tC : Fin k → Fin nT → ℝ) (i0 : Fin k) (c : ℝ) :
    Fin k → Fin nT → ℝ :=
  fun i j => if i = i0 then c * tC i j else tC i j

/-- Python dict indexing `reviews[title]`, for the association-list model
of the review dict (keys in insertion order, distinct): the value of the
first pair whose key matches. -/
def lookupReviews (reviews : List (String × List String)) (title : String) : List String :=
  ((reviews.find? fun p => p.1 == title).map Prod.snd).getD []

/-- `prepare_data`: `titles = list(reviews.keys())`, each document is
`" ".join(reviews[title])`, and `m = sum(len(reviews[title]) for title in
titles)`, exactly the three comprehensions of the source. -/
def prepare_data (reviews : List (String × List String)) :
    List String × List String × ℕ :=
  let titles := reviews.map Prod.fst
  (titles,
   titles.map fun title => String.intercalate " " (lookupReviews reviews title),
   (titles.map fun title => (lookupReviews reviews title).length).sum)

/-- A tiny concrete review corpus used to instantiate theorems with
hypotheses: two movies, two reviews for the first and one for the second. -/
def demoCorpus : List (String × List String) :=
  [("A", ["x", "y"]), ("B", ["z"])]

/-- One column of the tf-idf frame (`result[[movie]].values`): every row
of the matrix (one row per term, as in the transposed source array)
contributes its entry at the column index of the movie. -/
def colVals (tfIdfM : List (List ℚ)) (c : ℕ) : List ℚ :=
  tfIdfM.map fun row => row.getD c 0

/-- `result[[movie]].sort_values(movie, ascending=False)`: the (term,
score) pairs of a column sorted by descending score.  The tie order of the
pandas quicksort is implementation-defined and outside this repository;
the model fixes a deterministic descending sort.  Scores are rational here
so the comparison is decidable; the ranking code is generic in the values
it receives. -/
def sortDesc (ps : List (String × ℚ)) : List (String × ℚ) :=
  ps.mergeSort fun a b => b.2 ≤ a.2

/-- `extract_top_n_tfidf`: the frame has the vocabulary as its index and
one column per title; for each movie, its column is selected by name,
sorted descending, truncated to n, and the result dict maps the movie to
the zipped (word, value) pairs. -/
def extract_top_n_tfidf (vocab : List String) (tfIdfM : List (List ℚ))
    (titles : List String) (n : ℕ) : List (String × List (String × ℚ)) :=
  titles.map fun movie =>
    (movie, (sortDesc (vocab.zip (colVals tfIdfM (titles.indexOf movie)))).take n)

/-- One iteration of the loop of `extract_top_n_relative_importance`: the
column assigned by `result["Importance"] = result[movie].values /
result.drop(movie, 1)...sum(axis=1).values`.  The frame summed on the
right contains the other title columns and, after the first iteration,
also the Importance column written by the previous iteration, threaded
here as `impCol`. -/
noncomputable def relScore {k nT : ℕ} (imp : Fin k → Fin nT → ℝ)
    (impCol : Option (Fin nT → ℝ)) (i : Fin k) : Fin nT → ℝ :=
  fun j => imp i j /
    ((∑ i' ∈ Finset.univ.erase i, imp i' j) + (impCol.map fun p => p j).getD 0)

/-- The loop of `extract_top_n_relative_importance` over the titles in
order: each processed class gets its score column, and the mutated
Importance column is threaded into the next iteration. -/
noncomputable def relScoresList {k nT : ℕ} (imp : Fin k → Fin nT → ℝ) :
    List (Fin k) → Option (Fin nT → ℝ) → List (Fin k × (Fin nT → ℝ))
  | [], _ => []
  | i :: rest, impCol =>
    (i, relScore imp impCol i) :: relScoresList imp rest (some (relScore imp impCol i))

/-- Modelled from the words of the specification, for comparison with the
source loop: the pure relative importance of class i, its importance
divided by the summed importance of all other classes, a function of the
importance matrix alone. -/
noncomputable def relImportanceSpec {k nT : ℕ} (imp : Fin k → Fin nT → ℝ)
    (i : Fin k) : Fin nT → ℝ :=
  fun j => imp i j / ∑ i' ∈ Finset.univ.erase i, imp i' j

/-- Plain (class_tfidf = False) mode of `generate`: take the first key of
the review dict, compute the top n word counts of its reviews, and return
the single-entry dict.  `get_top_n_words` wraps the external vectorizer,
declared a black box by the specification, and is therefore passed as a
function.  On an empty dict the source raises an IndexError at
`list(movie_reviews.keys())[0]`, modelled as `none`. -/
def generate_plain (get_top_n_words : List String → List (String × ℕ))
    (movie_reviews : List (String × List String)) :
    Option (List (String × List (String × ℕ))) :=
  movie_reviews.head?.map fun fst =>
    [(fst.1, get_top_n_words (lookupReviews movie_reviews fst.1))]

end TFIDF

/-- Claim C1: for every term-count matrix and every total review count
m > 0, the weighting returns the importance matrix with entry (class i,
term j) equal to ((t i j + 1) / (w i + 1)) * ln (m / sum_t j), where w i is
the total count of class i and sum_t j the total count of term j across
classes. -/
theorem c1_weighting_formula {k nT : ℕ} (tC : Fin k → Fin nT → ℝ) (m : ℝ)
    (_hm : 0 < m) (i : Fin k) (j : Fin nT) :
    TFIDF.tf_idf m tC j i =
      ((tC i j + 1) / ((∑ j', tC i j') + 1)) * Real.log (m / ∑ i', tC i' j) := by
  simp [TFIDF.tf_idf, TFIDF.tf, TFIDF.idf, TFIDF.w, TFIDF.sum_tij, TFIDF.tT]

/-- Witness for C1 at the 1 × 1 all-ones matrix with m = 2. -/
theorem c1_weighting_formula_witness :
    TFIDF.tf_idf 2 (fun _ _ => (1 : ℝ) : Fin 1 → Fin 1 → ℝ) 0 0 =
      (((1 : ℝ) + 1) / ((∑ j' : Fin 1, (1 : ℝ)) + 1)) *
        Real.log (2 / ∑ i' : Fin 1, (1 : ℝ)) :=
  c1_weighting_formula (fun _ _ => (1 : ℝ)) 2 (by norm_num) 0 0

/-- Claim C4 is false on the code: multiplying every count of class 0 of
the 2 × 1 all-ones matrix by the positive constant 2 changes idf, because
`sum_tij` sums over all classes including the scaled one (the scaled column
total goes from 2 to 3, so idf goes from ln (2/2) = 0 to ln (2/3) ≠ 0). -/
theorem c4_counterexample :
    TFIDF.idf 2 (TFIDF.scaleClass (fun _ _ => (1 : ℝ) : Fin 2 → Fin 1 → ℝ) 0 2) 0 ≠
      TFIDF.idf 2 (fun _ _ => (1 : ℝ) : Fin 2 → Fin 1 → ℝ) 0 := by
  simp only [TFIDF.idf, TFIDF.sum_tij, TFIDF.tT, TFIDF.scaleClass, Fin.sum_univ_two]
  norm_num

/-- Claim C4 amended: scaling the counts of class i0 by a positive constant
changes the tf entries of that class monotonically (each entry is
non-increasing in the scale factor), while idf at term j is unchanged only
when class i0 contributes nothing to term j (the column sums that feed idf
include the scaled class). -/
theorem c4_amended_scaling {k nT : ℕ} (tC : Fin k → Fin nT → ℝ)
    (hnn : ∀ i j, 0 ≤ tC i j) (i0 : Fin k) (c c' : ℝ) (hc : 0 < c) (hcc : c ≤ c')
    (m : ℝ) (j : Fin nT) :
    TFIDF.tf (TFIDF.scaleClass tC i0 c') j i0 ≤ TFIDF.tf (TFIDF.scaleClass tC i0 c) j i0 ∧
      (tC i0 j = 0 →
        TFIDF.idf m (TFIDF.scaleClass tC i0 c) j = TFIDF.idf m tC j) := by
  constructor
  · have hW : (0 : ℝ) ≤ ∑ j', tC i0 j' := Finset.sum_nonneg fun j' _ => hnn i0 j'
    have htW : tC i0 j ≤ ∑ j', tC i0 j' :=
      Finset.single_le_sum (fun j' _ => hnn i0 j') (Finset.mem_univ j)
    have ht : (0 : ℝ) ≤ tC i0 j := hnn i0 j
    have hc' : (0 : ℝ) < c' := lt_of_lt_of_le hc hcc
    have hwc : TFIDF.w (TFIDF.scaleClass tC i0 c) i0 = c * ∑ j', tC i0 j' := by
      simp [TFIDF.w, TFIDF.tT, TFIDF.scaleClass, Finset.mul_sum]
    have hwc' : TFIDF.w (TFIDF.scaleClass tC i0 c') i0 = c' * ∑ j', tC i0 j' := by
      simp [TFIDF.w, TFIDF.tT, TFIDF.scaleClass, Finset.mul_sum]
    simp only [TFIDF.tf, TFIDF.tT, TFIDF.scaleClass, hwc, hwc', if_pos]
    rw [div_le_div_iff₀ (by nlinarith) (by nlinarith)]
    nlinarith [mul_nonneg (sub_nonneg.2 hcc) (sub_nonneg.2 htW)]
  · intro h0
    have hsum : TFIDF.sum_tij (TFIDF.scaleClass tC i0 c) j = TFIDF.sum_tij tC j := by
      unfold TFIDF.sum_tij TFIDF.tT TFIDF.scaleClass
      refine Finset.sum_congr rfl fun i _ => ?_
      by_cases hi : i = i0
      · subst hi; simp [h0]
      · simp [hi]
    simp [TFIDF.idf, hsum]

/-- Witness for the amended C4 at the 2 × 1 all-ones matrix, class 0,
scale factors 1 ≤ 2, m = 2. -/
theorem c4_amended_scaling_witness :
    TFIDF.tf (TFIDF.scaleClass (fun _ _ => (1 : ℝ) : Fin 2 → Fin 1 → ℝ) 0 2) 0 0 ≤
      TFIDF.tf (TFIDF.scaleClass (fun _ _ => (1 : ℝ) : Fin 2 → Fin 1 → ℝ) 0 1) 0 0 ∧
      ((fun _ _ => (1 : ℝ) : Fin 2 → Fin 1 → ℝ) 0 0 = 0 →
        TFIDF.idf 2 (TFIDF.scaleClass (fun _ _ => (1 : ℝ) : Fin 2 → Fin 1 → ℝ) 0 1) 0 =
          TFIDF.idf 2 (fun _ _ => (1 : ℝ) : Fin 2 → Fin 1 → ℝ) 0) :=
  c4_amended_scaling (fun _ _ => (1 : ℝ)) (fun _ _ => by norm_num) 0 1 2
    (by norm_num) (by norm_num) 2 0

/-- Claim C5 is false on the code: `c_tf_idf` performs no validation of m
at all, and at m = 0 it still returns an importance matrix instead of
raising, as this concrete evaluation of the returned entry shows (the
real-valued model evaluates ln (0 / sum) to Real.log 0 = 0; numpy produces
-inf there, in both cases a returned matrix rather than an error). -/
theorem c5_counterexample :
    TFIDF.tf_idf 0 (fun _ _ => (1 : ℝ) : Fin 2 → Fin 1 → ℝ) 0 0 = 0 := by
  simp [TFIDF.tf_idf, TFIDF.idf, zero_div, Real.log_zero]

/-- Claim C5 amended: the weighting has no error path; for m = 0 (and any
count matrix) every entry it returns is the tf entry multiplied by the
logarithm of 0, so a matrix is returned and no InvalidCorpusError exists in
the code. -/
theorem c5_amended_no_validation {k nT : ℕ} (tC : Fin k → Fin nT → ℝ)
    (j : Fin nT) (i : Fin k) :
    TFIDF.tf_idf 0 tC j i = TFIDF.tf tC j i * Real.log 0 := by
  simp [TFIDF.tf_idf, TFIDF.idf, zero_div]

/-- Claim C9: with non-negative counts every Laplace-smoothed tf entry is
strictly positive, so the sign of each importance entry coincides with the
sign of the idf value of its term, for every class. -/
theorem c9_sign_determined {k nT : ℕ} (tC : Fin k → Fin nT → ℝ)
    (hnn : ∀ i j, 0 ≤ tC i j) (m : ℝ) (i : Fin k) (j : Fin nT) :
    0 < TFIDF.tf tC j i ∧
      (0 < TFIDF.tf_idf m tC j i ↔ 0 < TFIDF.idf m tC j) ∧
      (TFIDF.tf_idf m tC j i = 0 ↔ TFIDF.idf m tC j = 0) ∧
      (TFIDF.tf_idf m tC j i < 0 ↔ TFIDF.idf m tC j < 0) := by
  have h1 : (0 : ℝ) ≤ TFIDF.tT tC j i := hnn i j
  have h2 : (0 : ℝ) ≤ TFIDF.w tC i := Finset.sum_nonneg fun j' _ => hnn i j'
  have htf : 0 < TFIDF.tf tC j i := by
    have := div_pos (by linarith : (0 : ℝ) < TFIDF.tT tC j i + 1)
      (by linarith : (0 : ℝ) < TFIDF.w tC i + 1)
    simpa [TFIDF.tf] using this
  refine ⟨htf, ?_, ?_, ?_⟩
  · unfold TFIDF.tf_idf
    constructor
    · intro h
      by_contra hn
      push_neg at hn
      nlinarith
    · intro h
      exact mul_pos htf h
  · unfold TFIDF.tf_idf
    rw [mul_eq_zero]
    constructor
    · rintro (h | h)
      · exact absurd h (ne_of_gt htf)
      · exact h
    · intro h
      exact Or.inr h
  · unfold TFIDF.tf_idf
    constructor
    · intro h
      by_contra hn
      push_neg at hn
      nlinarith
    · intro h
      exact mul_neg_of_pos_of_neg htf h

/-- Witness for C9 at the 1 × 1 all-ones matrix with m = 3. -/
theorem c9_sign_determined_witness :
    0 < TFIDF.tf (fun _ _ => (1 : ℝ) : Fin 1 → Fin 1 → ℝ) 0 0 ∧
      (0 < TFIDF.tf_idf 3 (fun _ _ => (1 : ℝ) : Fin 1 → Fin 1 → ℝ) 0 0 ↔
        0 < TFIDF.idf 3 (fun _ _ => (1 : ℝ) : Fin 1 → Fin 1 → ℝ) 0) ∧
      (TFIDF.tf_idf 3 (fun _ _ => (1 : ℝ) : Fin 1 → Fin 1 → ℝ) 0 0 = 0 ↔
        TFIDF.idf 3 (fun _ _ => (1 : ℝ) : Fin 1 → Fin 1 → ℝ) 0 = 0) ∧
      (TFIDF.tf_idf 3 (fun _ _ => (1 : ℝ) : Fin 1 → Fin 1 → ℝ) 0 0 < 0 ↔
        TFIDF.idf 3 (fun _ _ => (1 : ℝ) : Fin 1 → Fin 1 → ℝ) 0 < 0) :=
  c9_sign_determined (fun _ _ => (1 : ℝ)) (fun _ _ => by norm_num) 3 0 0

/-- Dict indexing at the first key returns the first value. -/
theorem lookupReviews_head (r : String × List String) (rs : List (String × List String)) :
    TFIDF.lookupReviews (r :: rs) r.1 = r.2 := by
  simp [TFIDF.lookupReviews, List.find?_cons]

/-- Dict indexing skips a head pair whose key differs. -/
theorem lookupReviews_tail (r : String × List String) (rs : List (String × List String))
    (t : String) (h : r.1 ≠ t) :
    TFIDF.lookupReviews (r :: rs) t = TFIDF.lookupReviews rs t := by
  simp [TFIDF.lookupReviews, List.find?_cons, h]

/-- With distinct keys, mapping any function of the looked-up value over
the key list is mapping that function of the stored value over the pairs. -/
theorem lookup_map_keys {α : Type} (g : List String → α) :
    ∀ reviews : List (String × List String), (reviews.map Prod.fst).Nodup →
      (reviews.map Prod.fst).map (fun title => g (TFIDF.lookupReviews reviews title)) =
        reviews.map fun p => g p.2
  | [], _ => rfl
  | r :: rs, hnd => by
      have hnd' : (r.1 :: rs.map Prod.fst).Nodup := by simpa using hnd
      have hnotmem : r.1 ∉ rs.map Prod.fst := (List.nodup_cons.mp hnd').1
      simp only [List.map_cons]
      congr 1
      · rw [lookupReviews_head]
      · have hcongr : (rs.map Prod.fst).map
            (fun t => g (TFIDF.lookupReviews (r :: rs) t)) =
            (rs.map Prod.fst).map (fun t => g (TFIDF.lookupReviews rs t)) := by
          refine List.map_congr_left fun t ht => ?_
          have hne : r.1 ≠ t := fun he => hnotmem (he ▸ ht)
          rw [lookupReviews_tail _ _ _ hne]
        rw [hcongr]
        exact lookup_map_keys g rs (List.nodup_cons.mp hnd').2

/-- Claim C2: for every review corpus with distinct titles, `prepare_data`
returns titles and documents of equal length with index correspondence
(titles at index i is the key of the i-th corpus entry and documents at
index i is the space-join, in original order, of the reviews of that same
entry), and m is the total number of individual reviews over all titles. -/
theorem c2_prepare_data (reviews : List (String × List String))
    (hnd : (reviews.map Prod.fst).Nodup) :
    (TFIDF.prepare_data reviews).1.length = (TFIDF.prepare_data reviews).2.1.length ∧
      (∀ i, i < reviews.length →
        (TFIDF.prepare_data reviews).1.getD i "" = (reviews.getD i ("", [])).1 ∧
          (TFIDF.prepare_data reviews).2.1.getD i "" =
            String.intercalate " " (reviews.getD i ("", [])).2) ∧
      (TFIDF.prepare_data reviews).2.2 = (reviews.map fun p => p.2.length).sum := by
  have htitles : (TFIDF.prepare_data reviews).1 = reviews.map Prod.fst := rfl
  have hdocs : (TFIDF.prepare_data reviews).2.1 =
      reviews.map fun p => String.intercalate " " p.2 :=
    lookup_map_keys (String.intercalate " ") reviews hnd
  have hm : (TFIDF.prepare_data reviews).2.2 = (reviews.map fun p => p.2.length).sum := by
    have h := lookup_map_keys (fun l : List String => l.length) reviews hnd
    simpa [TFIDF.prepare_data] using congrArg List.sum h
  refine ⟨?_, fun i hi => ⟨?_, ?_⟩, hm⟩
  · rw [htitles, hdocs]
    simp
  · rw [htitles, List.getD_eq_getElem _ _ (by simpa using hi), List.getElem_map,
      List.getD_eq_getElem _ _ hi]
  · rw [hdocs, List.getD_eq_getElem _ _ (by simpa using hi), List.getElem_map,
      List.getD_eq_getElem _ _ hi]

/-- Witness for C2 on the two-movie demo corpus: the total review count m
is 2 + 1 = 3, obtained by applying the claim theorem. -/
theorem c2_prepare_data_witness :
    (TFIDF.prepare_data TFIDF.demoCorpus).2.2 =
      (TFIDF.demoCorpus.map fun p => p.2.length).sum :=
  (c2_prepare_data TFIDF.demoCorpus (by decide)).2.2

/-- Claim C7: the top-n extraction is a deterministic function of the
importance matrix, the vocabulary, the title list and n: two runs on
identical inputs give identical output. -/
theorem c7_extraction_deterministic (vocab vocab' : List String)
    (tfIdfM tfIdfM' : List (List ℚ)) (titles titles' : List String) (n n' : ℕ)
    (hv : vocab = vocab') (hm : tfIdfM = tfIdfM') (ht : titles = titles') (hn : n = n') :
    TFIDF.extract_top_n_tfidf vocab tfIdfM titles n =
      TFIDF.extract_top_n_tfidf vocab' tfIdfM' titles' n' := by
  subst hv hm ht hn
  rfl

/-- Witness for C7 on a concrete two-term, two-title input. -/
theorem c7_extraction_deterministic_witness :
    TFIDF.extract_top_n_tfidf ["bad", "good"] [[1, 0], [0, 1]] ["A", "B"] 1 =
      TFIDF.extract_top_n_tfidf ["bad", "good"] [[1, 0], [0, 1]] ["A", "B"] 1 :=
  c7_extraction_deterministic _ _ _ _ _ _ _ _ rfl rfl rfl rfl

/-- Claim C10: when the matrix has one row per vocabulary term and the
titles are distinct (they are dict keys in the source), the extraction
keeps exactly the input titles as keys, in order, and every title is
mapped to exactly min n (vocabulary size) pairs. -/
theorem c10_extraction_shape (vocab : List String) (tfIdfM : List (List ℚ))
    (titles : List String) (n : ℕ) (hshape : tfIdfM.length = vocab.length)
    (_hnd : titles.Nodup) :
    (TFIDF.extract_top_n_tfidf vocab tfIdfM titles n).map Prod.fst = titles ∧
      ∀ e ∈ TFIDF.extract_top_n_tfidf vocab tfIdfM titles n,
        e.2.length = min n vocab.length := by
  constructor
  · simp [TFIDF.extract_top_n_tfidf, Function.comp_def]
  · intro e he
    simp only [TFIDF.extract_top_n_tfidf, List.mem_map] at he
    obtain ⟨movie, _hmem, rfl⟩ := he
    simp [TFIDF.sortDesc, TFIDF.colVals, List.length_mergeSort, hshape]

/-- Witness for C10 on a concrete 2-term vocabulary, 2 × 2 matrix, two
titles and n = 1. -/
theorem c10_extraction_shape_witness :
    (TFIDF.extract_top_n_tfidf ["bad", "good"] [[1, 0], [0, 1]] ["A", "B"] 1).map
        Prod.fst = ["A", "B"] ∧
      ∀ e ∈ TFIDF.extract_top_n_tfidf ["bad", "good"] [[1, 0], [0, 1]] ["A", "B"] 1,
        e.2.length = min 1 (["bad", "good"] : List String).length :=
  c10_extraction_shape ["bad", "good"] [[1, 0], [0, 1]] ["A", "B"] 1 rfl (by decide)

/-- Claim C3 is false on the code: with the 2 × 1 all-ones importance
matrix and the classes processed in the order 0, 1, the loop of
`extract_top_n_relative_importance` assigns class 1 the score 1/2, not the
pure relative importance 1, because the denominator of the second
iteration also sums the Importance column written by the first. -/
theorem c3_counterexample :
    ((TFIDF.relScoresList (fun _ _ => (1 : ℝ) : Fin 2 → Fin 1 → ℝ) [0, 1] none).getD 1
        (0, fun _ => 0)).2 0 ≠
      TFIDF.relImportanceSpec (fun _ _ => (1 : ℝ) : Fin 2 → Fin 1 → ℝ) 1 0 := by
  have e0 : (Finset.univ.erase (0 : Fin 2)) = {1} := by decide
  have e1 : (Finset.univ.erase (1 : Fin 2)) = {0} := by decide
  simp [TFIDF.relScoresList, TFIDF.relScore, TFIDF.relImportanceSpec, e0, e1]

/-- Claim C3 amended: only the first processed class receives the pure
relative-importance score (importance divided by the summed importance of
the other classes); the loop then threads that freshly written Importance
column into the frame summed by the next iteration, so the scores of later
classes depend on the processing order. -/
theorem c3_amended_first_class_pure {k nT : ℕ} (imp : Fin k → Fin nT → ℝ)
    (i : Fin k) (rest : List (Fin k)) :
    TFIDF.relScoresList imp (i :: rest) none =
      (i, TFIDF.relImportanceSpec imp i) ::
        TFIDF.relScoresList imp rest (some (TFIDF.relImportanceSpec imp i)) := by
  have h : TFIDF.relScore imp none i = TFIDF.relImportanceSpec imp i := by
    funext j
    simp [TFIDF.relScore, TFIDF.relImportanceSpec]
  simp [TFIDF.relScoresList, h]

/-- Claim C8: in plain (non-class) mode, only the first title of the
corpus is processed: the output dict has exactly that title as key, bound
to the top-n word counts of its reviews, and no other title occurs. -/
theorem c8_plain_mode_first_title_only (g : List String → List (String × ℕ))
    (r : String × List String) (rest : List (String × List String))
    (hnd : ((r :: rest).map Prod.fst).Nodup) :
    TFIDF.generate_plain g (r :: rest) = some [(r.1, g r.2)] ∧
      ∀ p ∈ rest, p.1 ∉
        ([(r.1, g r.2)] : List (String × List (String × ℕ))).map Prod.fst := by
  have hnd' : (r.1 :: rest.map Prod.fst).Nodup := by simpa using hnd
  have hnotmem : r.1 ∉ rest.map Prod.fst := (List.nodup_cons.mp hnd').1
  constructor
  · simp [TFIDF.generate_plain, lookupReviews_head]
  · intro p hp
    simp only [List.map_cons, List.map_nil, List.mem_singleton]
    intro he
    exact hnotmem (he ▸ List.mem_map_of_mem Prod.fst hp)

/-- Witness for C8 on the two-movie demo corpus with a concrete counting
function: only movie A appears in the output. -/
theorem c8_plain_mode_first_title_only_witness :
    TFIDF.generate_plain (fun revs => [("w", revs.length)])
        (("A", ["x", "y"]) :: [("B", ["z"])]) =
      some [("A", [("w", (["x", "y"] : List String).length)])] ∧
      ∀ p ∈ [("B", ["z"])], p.1 ∉
        ([("A", [("w", (["x", "y"] : List String).length)])] :
          List (String × List (String × ℕ))).map Prod.fst :=
  c8_plain_mode_first_title_only (fun revs => [("w", revs.length)])
    ("A", ["x", "y"]) [("B", ["z"])] (by decide)
